import Mathlib

/-!
Shallow embedding of `src/file_cataloger.py` (class `FileCataloger`):
the scanner (`scan_directory`, `_get_files_with_depth`, `scan_multiple_volumes`),
the classifier (`categorize_file`), the exclusion filter (`_is_path_excluded`)
and the organizer (`organize_files`, `_process_file`).

Modelling conventions:
* absolute file-system paths are lists of name segments (`List String`);
  `pathStr` renders them the way `str(pathlib.Path(...))` does, and path
  resolution (`Path.resolve`) is the identity because the model has no
  symlinks and only holds normalized absolute paths;
* the directory tree seen by a scan is an inductive `Entry` tree;
* machine-level failures that the Python code observes through exceptions
  (stat failure, mkdir failure, copy/move failure) and through `os.access`
  are part of the modelled file-system state, as explicit flags/sets;
* tree traversals (`rglob`, `os.walk`) are mutual structural recursions
  over the tree; the two loops whose Python counterpart has no structural
  bound (`str.replace`, the duplicate-name `while` loop) take an explicit
  fuel argument, and callers pass a fuel that dominates the loop length
  (the string length; the number of existing paths plus one), so the
  fuel cut-off branch is never reached on the arguments the embedded
  program uses.
-/

/-- Rendering of a segment list as the string `str(pathlib.Path(...))`
produces for an absolute path: `[] ↦ "/"`, `["a","b"] ↦ "/a/b"`. -/
def pathStr (p : List String) : String :=
  if p.isEmpty then "/" else String.join (p.map (fun seg => "/" ++ seg))

/-- Python `s.replace(pat, "")` (left-to-right, non-overlapping removal of
every occurrence of `pat`), on character lists, with fuel.  With `pat = ""`
Python's `s.replace("", "")` returns `s` unchanged, which the first guard
mirrors.  Fuel at least `s.length` is exact. -/
def pyRemoveFuel (pat : List Char) : Nat → List Char → List Char
  | _, [] => []
  | 0, s => s
  | fuel + 1, c :: rest =>
    if pat ≠ [] ∧ pat.isPrefixOf (c :: rest) then
      pyRemoveFuel pat fuel (List.drop pat.length (c :: rest))
    else
      c :: pyRemoveFuel pat fuel rest

/-- Wrapper for `s.replace(pat, "")` from `_get_files_with_depth`'s
`root.replace(str(directory), '')`. -/
def pyRemove (s pat : String) : List Char :=
  pyRemoveFuel pat.data s.data.length s.data

/-- Embedding of `(...).count(os.sep)` with `os.sep = '/'`. -/
def sepCount (s : List Char) : Nat :=
  s.count '/'

/-- Index of the last `'.'` in a name, as Python `str.rfind` (`none` when
absent). -/
def lastDotIdx (name : List Char) : Option Nat :=
  (List.range name.length).foldl
    (fun acc i => if name.get? i = some '.' then some i else acc) none

/-- Embedding of `pathlib.PurePath.suffix` of a file name: the part from the last dot on,
empty when the name has no dot, starts with its only dot, or ends in a dot. -/
def nameSuffix (name : String) : String :=
  match lastDotIdx name.data with
  | none => ""
  | some i =>
    if 0 < i ∧ i < name.data.length - 1 then ⟨name.data.drop i⟩ else ""

/-- Embedding of `pathlib.PurePath.stem`: the name with `nameSuffix` removed. -/
def nameStem (name : String) : String :=
  ⟨name.data.take (name.data.length - (nameSuffix name).data.length)⟩

/-- Python `str.lower()` on one character; the repository only ever lowers
ASCII extensions, for which Python and this ASCII fold agree. -/
def charLower (c : Char) : Char :=
  if 65 ≤ c.toNat ∧ c.toNat ≤ 90 then Char.ofNat (c.toNat + 32) else c

/-- Python `str.lower()` on a string (ASCII fold, see `charLower`). -/
def strLower (s : String) : String :=
  ⟨s.data.map charLower⟩

/-- Extension set of the `fotos` category (`FileCataloger.__init__`). -/
def fotosExts : List String :=
  [".jpg", ".jpeg", ".png", ".gif", ".bmp", ".tiff", ".tif",
   ".webp", ".raw", ".cr2", ".nef", ".arw", ".dng", ".heic", ".heif"]

/-- Extension set of the `ebooks` category. -/
def ebooksExts : List String :=
  [".pdf", ".epub", ".mobi", ".azw", ".azw3", ".fb2", ".lit",
   ".pdb", ".cbr", ".cbz"]

/-- Extension set of the `documents` category. -/
def documentsExts : List String :=
  [".txt", ".rtf", ".doc", ".docx", ".xls", ".xlsx"]

/-- Extension set of the `filmes` category. -/
def filmesExts : List String :=
  [".mp4", ".avi", ".mkv", ".mov", ".wmv", ".flv", ".webm",
   ".m4v", ".3gp", ".ogv", ".ts", ".m2ts", ".vob", ".iso"]

/-- Extension set of the `musicas` category. -/
def musicasExts : List String :=
  [".mp3", ".flac", ".wav", ".aac", ".ogg", ".wma", ".m4a",
   ".opus", ".ape", ".ac3", ".dts", ".aiff"]

/-- The extension-to-category table built in `FileCataloger.__init__`
(`self.categories`), in dictionary insertion order; `"outros"` is the
fallback with an empty set. -/
def categories : List (String × List String) :=
  [("fotos", fotosExts),
   ("ebooks", ebooksExts),
   ("documents", documentsExts),
   ("filmes", filmesExts),
   ("musicas", musicasExts),
   ("outros", [])]

/-- The six category names, in table order. -/
def categoryNames : List String :=
  categories.map Prod.fst

/-- Extension set of a recognized category name (`self.categories[k]`). -/
def categoryExts (k : String) : Option (List String) :=
  (categories.find? (fun ce => ce.1 == k)).map Prod.snd

/-- Embedding of `FileCataloger.categorize_file`: lowercase the suffix, return the first
category of the table whose extension set contains it, else `"outros"`.
Pure and deterministic by construction. -/
def categorize_file (suffix : String) : String :=
  let extension := strLower suffix
  match categories.find? (fun ce => ce.2.contains extension) with
  | some ce => ce.1
  | none => "outros"

example : categorize_file ".jpg" = "fotos" := by decide
example : categorize_file ".JPG" = "fotos" := by decide
example : categorize_file "" = "outros" := by decide
example : categorize_file ".xyz" = "outros" := by decide
example : categorize_file ".EpUb" = "ebooks" := by decide

/-- Embedding of `FileCataloger._is_path_excluded`: true iff some configured exclusion
path equals the candidate or is an ancestor of it (Python's
`relative_to` succeeds exactly when the exclusion is a segment-wise
prefix of the resolved candidate).  An empty exclusion set excludes
nothing. -/
def isPathExcluded (excludePaths : List (List String)) (p : List String) : Bool :=
  excludePaths.any (fun d => d.isPrefixOf p)

/-- One node of the directory tree a scan sees.  A `file` carries the
metadata `os.stat` would report (`size`, `st_mtime`, `st_ctime`), whether
`stat` succeeds (`statOk = false` models the `except` arm of
`get_file_info`), and the value `get_file_hash` would return (`none`
models a hash-computation failure). -/
inductive Entry where
  | file (name : String) (size : Nat) (mtime : Nat) (ctime : Nat)
      (statOk : Bool) (hashVal : Option String)
  | dir (name : String) (children : List Entry)

/-- Name segment of an entry. -/
def Entry.name : Entry → String
  | .file n _ _ _ _ _ => n
  | .dir n _ => n

/-- Embedding of `Path.is_file()` for an entry of the model tree. -/
def Entry.isFile : Entry → Bool
  | .file _ _ _ _ _ _ => true
  | .dir _ _ => false

/-- Look an absolute path up in the tree (`Path.exists` / locating the
subtree a scan starts from). -/
def findEntry : List String → Entry → Option Entry
  | [], e => some e
  | _ :: _, .file _ _ _ _ _ _ => none
  | seg :: rest, .dir _ children =>
    match children.find? (fun c => c.name == seg) with
    | some c => findEntry rest c
    | none => none

mutual

/-- Embedding of `directory.rglob('*')`: every entry strictly below the directory,
paired with its absolute path, in depth-first order.  `rglob` knows
nothing about exclusions, so nothing is pruned here. -/
def rglobEntries : List String → Entry → List (List String × Entry)
  | _, .file _ _ _ _ _ _ => []
  | p, .dir _ children => rglobEntriesList p children

/-- Step of `rglobEntries` over the children of one directory. -/
def rglobEntriesList : List String → List Entry → List (List String × Entry)
  | _, [] => []
  | p, c :: cs =>
    ((p ++ [c.name], c) :: rglobEntries (p ++ [c.name]) c) ++
    rglobEntriesList p cs

end

mutual

/-- The directories `rglob` descends into: the root and every descendant
directory, excluded or not. -/
def rglobVisited : List String → Entry → List (List String)
  | _, .file _ _ _ _ _ _ => []
  | p, .dir _ children => p :: rglobVisitedList p children

/-- Step of `rglobVisited` over the children of one directory. -/
def rglobVisitedList : List String → List Entry → List (List String)
  | _, [] => []
  | p, c :: cs =>
    rglobVisited (p ++ [c.name]) c ++ rglobVisitedList p cs

end

mutual

/-- Embedding of `FileCataloger._get_files_with_depth`, driven by `os.walk(directory)`
(top-down): at each visited directory, prune when it is excluded;
otherwise compute `level = root.replace(str(directory), '').count(os.sep)`
— Python's `replace` deletes every occurrence of the pattern, which this
embedding reproduces exactly — yield the directory's files, and clear
`dirs` (no descent into subdirectories) when `level >= max_depth`. -/
def walkFiles (excludePaths : List (List String)) (rootStr : String)
    (maxDepth : Nat) : List String → Entry → List (List String × Entry)
  | _, .file _ _ _ _ _ _ => []
  | p, .dir _ children =>
    if isPathExcluded excludePaths p then []
    else
      (children.filterMap (fun c =>
        if c.isFile then some (p ++ [c.name], c) else none)) ++
      (if sepCount (pyRemove (pathStr p) rootStr) ≥ maxDepth then []
       else walkFilesList excludePaths rootStr maxDepth p children)

/-- Step of `walkFiles` over the subdirectories of one directory (`os.walk` only
descends into directories; a `file` child contributes nothing here). -/
def walkFilesList (excludePaths : List (List String)) (rootStr : String)
    (maxDepth : Nat) : List String → List Entry → List (List String × Entry)
  | _, [] => []
  | p, c :: cs =>
    walkFiles excludePaths rootStr maxDepth (p ++ [c.name]) c ++
    walkFilesList excludePaths rootStr maxDepth p cs

end

mutual

/-- The directories the `os.walk` loop of `_get_files_with_depth` runs
its body on: the root, and below each non-excluded, non-depth-pruned
directory, its subdirectories. -/
def walkVisited (excludePaths : List (List String)) (rootStr : String)
    (maxDepth : Nat) : List String → Entry → List (List String)
  | _, .file _ _ _ _ _ _ => []
  | p, .dir _ children =>
    p ::
    (if isPathExcluded excludePaths p then []
     else if sepCount (pyRemove (pathStr p) rootStr) ≥ maxDepth then []
     else walkVisitedList excludePaths rootStr maxDepth p children)

/-- Step of `walkVisited` over the subdirectories of one directory. -/
def walkVisitedList (excludePaths : List (List String)) (rootStr : String)
    (maxDepth : Nat) : List String → List Entry → List (List String)
  | _, [] => []
  | p, c :: cs =>
    walkVisited excludePaths rootStr maxDepth (p ++ [c.name]) c ++
    walkVisitedList excludePaths rootStr maxDepth p cs

end

/-- The dictionary `get_file_info` builds for one file, together with the
`hash` key optionally added by `scan_directory` and the `category` key it
always adds before appending to the catalog. -/
structure FileRecord where
  path : List String
  name : String
  size : Nat
  modified : Nat
  created : Nat
  extension : String
  parent_dir : List String
  hash : Option String
  category : String
deriving DecidableEq

/-- The scanner's mutable state: `self.catalog` (a `defaultdict(list)`
from category name to records in discovery order), `self.stats` (a
`Counter`), `self.errors` (the OperationLog) and
`self.folders_with_files` (a set). -/
structure ScanState where
  catalog : List (String × List FileRecord)
  stats : List (String × Nat)
  errors : List String
  folders_with_files : List (List String)
deriving DecidableEq

/-- The state `FileCataloger.__init__` starts from: empty catalog,
`Counter()`, no errors, no folders. -/
def initScanState : ScanState :=
  { catalog := [], stats := [], errors := [], folders_with_files := [] }

/-- Embedding of `Counter` lookup: missing keys count as `0`. -/
def counterGet : List (String × Nat) → String → Nat
  | [], _ => 0
  | kv :: rest, k => if kv.1 = k then kv.2 else counterGet rest k

/-- Embedding of `Counter` increment (`self.stats[k] += n`). -/
def counterAdd (stats : List (String × Nat)) (k : String) (n : Nat) :
    List (String × Nat) :=
  match stats with
  | [] => [(k, n)]
  | kv :: rest =>
    if kv.1 = k then (kv.1, kv.2 + n) :: rest else kv :: counterAdd rest k n

/-- Embedding of `defaultdict(list)` lookup (`self.catalog[k]`), defaulting to `[]`. -/
def catalogGet : List (String × List FileRecord) → String → List FileRecord
  | [], _ => []
  | kv :: rest, k => if kv.1 = k then kv.2 else catalogGet rest k

/-- Embedding of `self.catalog[category].append(file_info)` on the association-list
model of `defaultdict(list)`. -/
def catalogAppend (catalog : List (String × List FileRecord)) (k : String)
    (r : FileRecord) : List (String × List FileRecord) :=
  match catalog with
  | [] => [(k, [r])]
  | kv :: rest =>
    if kv.1 = k then (kv.1, kv.2 ++ [r]) :: rest
    else kv :: catalogAppend rest k r

/-- All records of a catalog, across categories. -/
def catalogRecords (catalog : List (String × List FileRecord)) :
    List FileRecord :=
  catalog.flatMap Prod.snd

/-- Python set insertion (`self.folders_with_files.add(...)`). -/
def setInsert (s : List (List String)) (p : List String) : List (List String) :=
  if p ∈ s then s else s ++ [p]

/-- The arguments of one `scan_directory` call together with the
exclusion set held by the cataloger object. -/
structure ScanCfg where
  include_hash : Bool
  max_depth : Option Nat
  file_type_filter : Option String
  excludePaths : List (List String)

/-- Python truthiness of an optional string (`if file_type_filter:`):
absent and empty strings are falsy. -/
def optTruthy : Option String → Bool
  | none => false
  | some s => !s.isEmpty

/-- The value `target_extensions` as computed at the top of `scan_directory`: set
only when the filter is truthy and `file_type_filter.lower()` is a key of
`self.categories`. -/
def targetExtensions (filter : Option String) : Option (List String) :=
  match filter with
  | none => none
  | some f =>
    if !f.isEmpty then
      match categoryExts (strLower f) with
      | some exts => some exts
      | none => none
    else none

/-- The per-file skip test
`if target_extensions and file_path.suffix.lower() not in target_extensions`:
an empty target set is falsy in Python, so it never skips. -/
def skipByFilter (target : Option (List String)) (ext : String) : Bool :=
  match target with
  | some exts => !exts.isEmpty && !exts.contains ext
  | none => false

/-- The record `scan_directory` appends for an accepted file: the
`get_file_info` dictionary, the optional hash and the category. -/
def mkScanRecord (cfg : ScanCfg) (p : List String) (name : String)
    (size mtime ctime : Nat) (hashVal : Option String) : FileRecord :=
  { path := p
    name := name
    size := size
    modified := mtime
    created := ctime
    extension := strLower (nameSuffix name)
    parent_dir := p.dropLast
    hash := if cfg.include_hash then hashVal else none
    category := categorize_file (nameSuffix name) }

/-- The body of `scan_directory`'s `for file_path in files:` loop for one
yielded entry: skip non-files, excluded paths and filtered-out
extensions; a stat failure records an error and skips the file; an
accepted file is classified, its parent folder recorded, and catalog and
stats updated. -/
def processScanEntry (cfg : ScanCfg) (st : ScanState)
    (pe : List String × Entry) : ScanState :=
  match pe.2 with
  | .dir _ _ => st
  | .file name size mtime ctime statOk hashVal =>
    if isPathExcluded cfg.excludePaths pe.1 then st
    else if skipByFilter (targetExtensions cfg.file_type_filter)
        (strLower (nameSuffix name)) then st
    else if !statOk then
      { st with errors := st.errors ++ ["Erro ao acessar " ++ pathStr pe.1] }
    else
      let r := mkScanRecord cfg pe.1 name size mtime ctime hashVal
      { st with
        folders_with_files := setInsert st.folders_with_files pe.1.dropLast
        catalog := catalogAppend st.catalog r.category r
        stats :=
          counterAdd
            (counterAdd (counterAdd st.stats r.category 1) "total_files" 1)
            "total_size" size }

/-- The sequence of entries `scan_directory` iterates over: `rglob` when
`max_depth` is unset, `_get_files_with_depth` otherwise; empty when the
root does not exist. -/
def scanEntries (cfg : ScanCfg) (fsTree : Entry) (root : List String) :
    List (List String × Entry) :=
  match findEntry root fsTree with
  | none => []
  | some e =>
    match cfg.max_depth with
    | none => rglobEntries root e
    | some d => walkFiles cfg.excludePaths (pathStr root) d root e

/-- The directories a `scan_directory` traversal runs over (descends
into): all descendants for the `rglob` branch, the pruned walk for the
depth-limited branch. -/
def scanVisitedDirs (cfg : ScanCfg) (fsTree : Entry) (root : List String) :
    List (List String) :=
  match findEntry root fsTree with
  | none => []
  | some e =>
    match cfg.max_depth with
    | none => rglobVisited root e
    | some d => walkVisited cfg.excludePaths (pathStr root) d root e

/-- Embedding of `FileCataloger.scan_directory`: if the root does not exist, only a
message is printed — the function returns with the state unchanged (in
particular nothing is appended to `self.errors`); otherwise every yielded
entry is processed in order. -/
def scan_directory (fsTree : Entry) (cfg : ScanCfg) (root : List String)
    (st : ScanState) : ScanState :=
  match findEntry root fsTree with
  | none => st
  | some _ => (scanEntries cfg fsTree root).foldl (processScanEntry cfg) st

/-- Embedding of `FileCataloger.scan_multiple_volumes`: the roots are scanned
sequentially, accumulating into the same state. -/
def scan_multiple_volumes (fsTree : Entry) (cfg : ScanCfg)
    (volumes : List (List String)) (st : ScanState) : ScanState :=
  volumes.foldl (fun s v => scan_directory fsTree cfg v s) st

/-- The flat file-system state the organizer reads and mutates: the sets
of existing files and directories, plus the machine-level behaviour the
Python code observes — which directories `os.access(…, os.W_OK)` reports
writable, which `mkdir` calls raise (`PermissionError`/`OSError`), and
which copy/move operations raise inside `shutil`. -/
structure OrgFS where
  files : List (List String)
  dirs : List (List String)
  writableDirs : List (List String)
  mkdirFail : List (List String)
  opFail : List (List String × List String)
deriving DecidableEq

/-- Embedding of `Path.exists()` against the organizer's file system. -/
def pathExists (fs : OrgFS) (p : List String) : Bool :=
  fs.files.contains p || fs.dirs.contains p

/-- All non-empty ancestor paths of `p`, `p` included. -/
def pathAncestors (p : List String) : List (List String) :=
  (List.range p.length).map (fun i => p.take (i + 1))

/-- Effect of `category_dir.mkdir(parents=True, exist_ok=True)` when it does not
raise: the directory and its ancestors come to exist. -/
def addDirWithParents (dirs : List (List String)) (d : List String) :
    List (List String) :=
  (pathAncestors d).foldl (fun acc q => if q ∈ acc then acc else acc ++ [q])
    dirs

/-- Embedding of `self.operation_stats`. -/
structure OpStats where
  successful_operations : Nat
  failed_operations : Nat
  skipped_operations : Nat
deriving DecidableEq

/-- State threaded through one `organize_files` call: the file system,
`self.operation_stats` and `self.errors` (the OperationLog). -/
structure OrgState where
  fs : OrgFS
  stats : OpStats
  errors : List String
deriving DecidableEq

/-- Insertion keeping the existing-path list a set. -/
def fsInsert (l : List (List String)) (p : List String) :
    List (List String) :=
  if p ∈ l then l else l ++ [p]

/-- Embedding of `FileCataloger._process_file`: for a move, require write permission on
the source's directory; always require it on the destination's directory;
then perform `shutil.copy2` / `shutil.move`.  The source's distinct
`except` arms (permission, missing file, no space, name too long, other
OS error, unexpected) differ only in message text and all return `False`,
so they are modelled as the single `opFail` arm. -/
def process_file (fs : OrgFS) (srcPath dstPath : List String)
    (copyFiles : Bool) : OrgFS × Option String × Bool :=
  if !copyFiles && !fs.writableDirs.contains srcPath.dropLast then
    (fs, some ("Sem permissao de escrita no diretorio fonte: " ++
      pathStr srcPath.dropLast), false)
  else if !fs.writableDirs.contains dstPath.dropLast then
    (fs, some ("Sem permissao de escrita no diretorio destino: " ++
      pathStr dstPath.dropLast), false)
  else if fs.opFail.contains (srcPath, dstPath) then
    (fs, some ("Erro ao processar " ++ pathStr srcPath), false)
  else if copyFiles then
    ({ fs with files := fsInsert fs.files dstPath }, none, true)
  else
    let remaining := fs.files.filter (fun q => q ≠ srcPath)
    ({ fs with files := fsInsert remaining dstPath }, none, true)

/-- The candidate name the duplicate-name loop builds from the source's
stem and suffix: `f"{stem}_{counter}{suffix}"`. -/
def dupName (stem : String) (counter : Nat) (suffix : String) : String :=
  stem ++ "_" ++ toString counter ++ suffix

/-- The `while dst_path.exists() and not dry_run:` loop of
`organize_files` in real mode: starting from `dst`, while the current
candidate exists replace it by `category_dir / f"{stem}_{counter}{suffix}"`
and increment the counter.  Fuel bounds the iteration count; with fuel
exceeding the number of existing paths the loop provably stops at the
first free candidate, exactly as the Python loop does. -/
def resolveDupLoop (occupied : List String → Bool)
    (categoryDir : List String) (stem suffix : String) :
    Nat → Nat → List String → List String
  | 0, _, dst => dst
  | fuel + 1, counter, dst =>
    if occupied dst then
      resolveDupLoop occupied categoryDir stem suffix fuel (counter + 1)
        (categoryDir ++ [dupName stem counter suffix])
    else dst

/-- The body of `organize_files`' inner `for i, file_info in
enumerate(files)` loop for one catalog record: a vanished source is an
error counted as failed; otherwise the destination is
`category_dir / src_path.name`, the duplicate-name loop runs in real mode
only, and the operation is simulated (dry run: counted successful) or
performed via `_process_file`. -/
def processRecord (copyFiles dryRun : Bool) (categoryDir : List String)
    (st : OrgState) (info : FileRecord) : OrgState :=
  let srcPath := info.path
  if !(pathExists st.fs srcPath) then
    { st with
      errors := st.errors ++
        ["Arquivo fonte nao encontrado: " ++ pathStr srcPath]
      stats := { st.stats with
        failed_operations := st.stats.failed_operations + 1 } }
  else
    let srcName := srcPath.getLastD ""
    let dstPath :=
      if dryRun then categoryDir ++ [srcName]
      else
        resolveDupLoop (pathExists st.fs) categoryDir (nameStem srcName)
          (nameSuffix srcName) (st.fs.files.length + st.fs.dirs.length + 1)
          1 (categoryDir ++ [srcName])
    if dryRun then
      { st with stats := { st.stats with
          successful_operations := st.stats.successful_operations + 1 } }
    else
      match process_file st.fs srcPath dstPath copyFiles with
      | (fs', msg, ok) =>
        { fs := fs'
          errors := st.errors ++ msg.toList
          stats :=
            if ok then
              { st.stats with successful_operations :=
                  st.stats.successful_operations + 1 }
            else
              { st.stats with failed_operations :=
                  st.stats.failed_operations + 1 } }

/-- The body of `organize_files`' outer `for category, files in
categories_to_process` loop: empty categories are skipped; in real mode
the category directory is created first, and a `mkdir` failure
(`PermissionError` or `OSError`, identical but for the message) records
an error and skips the whole category via `continue` — the loop moves on
without touching `operation_stats`. -/
def processCategory (copyFiles dryRun : Bool) (basePath : List String)
    (flatten : Bool) (st : OrgState) (cf : String × List FileRecord) :
    OrgState :=
  if cf.2.isEmpty then st
  else
    let categoryDir := if flatten then basePath else basePath ++ [cf.1]
    if !dryRun && st.fs.mkdirFail.contains categoryDir then
      { st with errors := st.errors ++
          ["Erro ao criar diretorio " ++ pathStr categoryDir] }
    else
      let st1 :=
        if dryRun then st
        else { st with fs := { st.fs with
          dirs := addDirWithParents st.fs.dirs categoryDir } }
      cf.2.foldl (processRecord copyFiles dryRun categoryDir) st1

/-- Embedding of `FileCataloger.organize_files`: reset `operation_stats`; choose the
base directory (`move_to_dir` wins over `base_output_dir`, and flattens
every category into it); with a truthy type filter, process only that
category when recognized and otherwise print a message and return
immediately; then run the per-category loop. -/
def organize_files (catalog : List (String × List FileRecord))
    (baseOutputDir : List String) (copyFiles dryRun : Bool)
    (fileTypeFilter : Option String) (moveToDir : Option (List String))
    (fs0 : OrgFS) (errors0 : List String) : OrgState :=
  let basePath := match moveToDir with | some p => p | none => baseOutputDir
  let st0 : OrgState := { fs := fs0, stats := ⟨0, 0, 0⟩, errors := errors0 }
  let cats : Option (List (String × List FileRecord)) :=
    match fileTypeFilter with
    | none => some catalog
    | some f =>
      if f.isEmpty then some catalog
      else if (categoryExts (strLower f)).isSome then
        some [(strLower f, catalogGet catalog (strLower f))]
      else none
  match cats with
  | none => st0
  | some cs =>
    cs.foldl (processCategory copyFiles dryRun basePath moveToDir.isSome) st0

/-- The record `scan_directory` would append for one yielded entry, or
`none` when the entry is skipped; the cases mirror `processScanEntry`. -/
def acceptedRecord (cfg : ScanCfg) (pe : List String × Entry) :
    Option FileRecord :=
  match pe.2 with
  | .dir _ _ => none
  | .file name size mtime ctime statOk hashVal =>
    if isPathExcluded cfg.excludePaths pe.1 then none
    else if skipByFilter (targetExtensions cfg.file_type_filter)
        (strLower (nameSuffix name)) then none
    else if !statOk then none
    else some (mkScanRecord cfg pe.1 name size mtime ctime hashVal)

/-! ### Helper lemmas -/

theorem contains_of_mem {l : List String} {x : String} (h : x ∈ l) :
    l.contains x = true := by
  simp [List.contains, h]

theorem contains_of_not_mem {l : List String} {x : String} (h : x ∉ l) :
    l.contains x = false := by
  simp [List.contains, h]

theorem foldl_preserve {α σ : Type _} (P : σ → Prop) (f : σ → α → σ)
    (hf : ∀ s a, P s → P (f s a)) :
    ∀ (l : List α) (s : σ), P s → P (List.foldl f s l) := by
  intro l
  induction l with
  | nil => intro s hs; exact hs
  | cons a l ih => intro s hs; exact ih (f s a) (hf s a hs)

theorem counterGet_counterAdd (stats : List (String × Nat)) (k k' : String)
    (n : Nat) :
    counterGet (counterAdd stats k n) k'
      = counterGet stats k' + (if k = k' then n else 0) := by
  induction stats with
  | nil => by_cases h : k = k' <;> simp [counterAdd, counterGet, h]
  | cons kv rest ih =>
    by_cases h : kv.1 = k
    · subst h
      by_cases h' : kv.1 = k' <;> simp [counterAdd, counterGet, h', ih]
    · by_cases h' : kv.1 = k'
      · have hk : k ≠ k' := fun e => h (h'.trans e.symm)
        have hk' : k' ≠ k := fun e => hk e.symm
        simp [counterAdd, counterGet, h, h', hk, hk']
      · simp [counterAdd, counterGet, h, h', ih]

theorem mem_catalogRecords_append (C : List (String × List FileRecord))
    (k : String) (r r' : FileRecord) :
    r' ∈ catalogRecords (catalogAppend C k r) ↔
      r' ∈ catalogRecords C ∨ r' = r := by
  induction C with
  | nil => simp [catalogAppend, catalogRecords]
  | cons kv rest ih =>
    by_cases h : kv.1 = k
    · simp only [catalogAppend, if_pos h, catalogRecords, List.flatMap_cons,
        List.mem_append, List.mem_singleton]
      tauto
    · simp only [catalogAppend, if_neg h, catalogRecords,
        List.flatMap_cons, List.mem_append]
      simp only [catalogRecords] at ih
      rw [ih]
      tauto

theorem sizes_catalogRecords_append (C : List (String × List FileRecord))
    (k : String) (r : FileRecord) :
    ((catalogRecords (catalogAppend C k r)).map FileRecord.size).sum
      = ((catalogRecords C).map FileRecord.size).sum + r.size := by
  induction C with
  | nil => simp [catalogAppend, catalogRecords]
  | cons kv rest ih =>
    by_cases h : kv.1 = k <;>
      simp [catalogAppend, catalogRecords, h] at ih ⊢ <;> omega

theorem categorize_file_mem_names (s : String) :
    categorize_file s ∈ categoryNames := by
  simp only [categorize_file, categoryNames]
  cases hf : categories.find? (fun ce => ce.2.contains (strLower s)) with
  | none => simp only [hf]; decide
  | some ce =>
    simp only [hf]
    exact List.mem_map_of_mem Prod.fst (List.mem_of_find?_eq_some hf)

theorem categorize_file_ne_total (s : String) :
    categorize_file s ≠ "total_files" ∧ categorize_file s ≠ "total_size" := by
  have h := categorize_file_mem_names s
  simp only [categoryNames, categories, List.map_cons, List.map_nil,
    List.mem_cons, List.not_mem_nil, or_false] at h
  rcases h with h | h | h | h | h | h <;> rw [h] <;> exact ⟨by decide, by decide⟩

/-! ### C4 -/

/-- C4: for every file extension (compared case-insensitively via
lowercasing, leading dot included) lying in a category's configured
extension set the Classifier returns that category; whenever the
lowercased extension is in no category's set — including the empty
extension — it returns the fallback `"outros"`; the function is a pure
Lean function, hence deterministic. -/
theorem C4_classifier_correct :
    (∀ suffix c exts, (c, exts) ∈ categories → strLower suffix ∈ exts →
       categorize_file suffix = c) ∧
    (∀ suffix, (∀ c exts, (c, exts) ∈ categories → strLower suffix ∉ exts) →
       categorize_file suffix = "outros") ∧
    categorize_file "" = "outros" ∧
    categorize_file ".JPG" = "fotos" := by
  have d10 : ∀ x ∈ ebooksExts, x ∉ fotosExts := by decide
  have d20 : ∀ x ∈ documentsExts, x ∉ fotosExts := by decide
  have d21 : ∀ x ∈ documentsExts, x ∉ ebooksExts := by decide
  have d30 : ∀ x ∈ filmesExts, x ∉ fotosExts := by decide
  have d31 : ∀ x ∈ filmesExts, x ∉ ebooksExts := by decide
  have d32 : ∀ x ∈ filmesExts, x ∉ documentsExts := by decide
  have d40 : ∀ x ∈ musicasExts, x ∉ fotosExts := by decide
  have d41 : ∀ x ∈ musicasExts, x ∉ ebooksExts := by decide
  have d42 : ∀ x ∈ musicasExts, x ∉ documentsExts := by decide
  have d43 : ∀ x ∈ musicasExts, x ∉ filmesExts := by decide
  refine ⟨?_, ?_, by decide, by decide⟩
  · intro suffix c exts hmem hin
    simp only [categories, List.mem_cons, List.not_mem_nil, or_false,
      Prod.mk.injEq] at hmem
    rcases hmem with ⟨rfl, rfl⟩ | ⟨rfl, rfl⟩ | ⟨rfl, rfl⟩ | ⟨rfl, rfl⟩ |
      ⟨rfl, rfl⟩ | ⟨rfl, rfl⟩
    · simp [categorize_file, categories, hin]
    · simp [categorize_file, categories, hin, d10 _ hin]
    · simp [categorize_file, categories, hin, d20 _ hin, d21 _ hin]
    · simp [categorize_file, categories, hin, d30 _ hin, d31 _ hin,
        d32 _ hin]
    · simp [categorize_file, categories, hin, d40 _ hin, d41 _ hin,
        d42 _ hin, d43 _ hin]
    · exact absurd hin (List.not_mem_nil _)
  · intro suffix hnone
    simp [categorize_file, categories,
      hnone "fotos" fotosExts (by decide),
      hnone "ebooks" ebooksExts (by decide),
      hnone "documents" documentsExts (by decide),
      hnone "filmes" filmesExts (by decide),
      hnone "musicas" musicasExts (by decide)]

/-- Closed instance of `C4_classifier_correct`: `.pdf` lies in the
`ebooks` extension set and the classifier maps `.PdF` to `ebooks`. -/
theorem C4_classifier_correct_witness :
    strLower ".PdF" ∈ ebooksExts ∧ categorize_file ".PdF" = "ebooks" :=
  ⟨by decide,
   C4_classifier_correct.1 ".PdF" "ebooks" ebooksExts (by decide) (by decide)⟩

/-! ### C3 -/

/-- Sum of the six per-category counters of a stats `Counter`. -/
def sumNames (stats : List (String × Nat)) : Nat :=
  (categoryNames.map (counterGet stats)).sum

/-- The invariant claimed for `Stats`: `total_files` equals the sum of
the per-category counters, and `total_size` equals the sum of the `size`
fields of all records in the catalog. -/
def statsInvariant (st : ScanState) : Prop :=
  counterGet st.stats "total_files" = sumNames st.stats ∧
  counterGet st.stats "total_size"
    = ((catalogRecords st.catalog).map FileRecord.size).sum

theorem sumNames_counterAdd_total_files (stats : List (String × Nat))
    (n : Nat) : sumNames (counterAdd stats "total_files" n) = sumNames stats := by
  simp [sumNames, categoryNames, categories, counterGet_counterAdd]

theorem sumNames_counterAdd_total_size (stats : List (String × Nat))
    (n : Nat) : sumNames (counterAdd stats "total_size" n) = sumNames stats := by
  simp [sumNames, categoryNames, categories, counterGet_counterAdd]

theorem sumNames_counterAdd_mem (stats : List (String × Nat)) (k : String)
    (n : Nat) (hk : k ∈ categoryNames) :
    sumNames (counterAdd stats k n) = sumNames stats + n := by
  simp only [categoryNames, categories, List.map_cons, List.map_nil,
    List.mem_cons, List.not_mem_nil, or_false] at hk
  rcases hk with rfl | rfl | rfl | rfl | rfl | rfl <;>
    simp [sumNames, categoryNames, categories, counterGet_counterAdd] <;>
    omega

theorem processScanEntry_inv (cfg : ScanCfg) (st : ScanState)
    (pe : List String × Entry) (h : statsInvariant st) :
    statsInvariant (processScanEntry cfg st pe) := by
  obtain ⟨p, e⟩ := pe
  cases e with
  | dir n cs => exact h
  | file name size mtime ctime statOk hashVal =>
    simp only [processScanEntry]
    split
    · exact h
    split
    · exact h
    split
    · exact h
    obtain ⟨h1, h2⟩ := h
    have hcat := categorize_file_mem_names (nameSuffix name)
    have hne := categorize_file_ne_total (nameSuffix name)
    have e1 : ("total_size" : String) ≠ "total_files" := by decide
    have e2 : ("total_files" : String) ≠ "total_size" := by decide
    refine ⟨?_, ?_⟩
    · simp [mkScanRecord, counterGet_counterAdd,
        sumNames_counterAdd_total_files, sumNames_counterAdd_total_size,
        sumNames_counterAdd_mem _ _ _ hcat, e1, e2, hne.1, hne.2, h1]
    · simp [mkScanRecord, counterGet_counterAdd,
        sizes_catalogRecords_append, e1, e2, hne.1, hne.2, h2]

theorem scan_directory_inv (fsTree : Entry) (cfg : ScanCfg)
    (root : List String) (st : ScanState) (h : statsInvariant st) :
    statsInvariant (scan_directory fsTree cfg root st) := by
  unfold scan_directory
  cases findEntry root fsTree with
  | none => exact h
  | some e =>
    exact foldl_preserve statsInvariant (processScanEntry cfg)
      (fun s a hs => processScanEntry_inv cfg s a hs) _ st h

/-- Fixture: a root `"/v"` holding one file of each of four categories. -/
def tinyFs : Entry :=
  .dir "" [.dir "v" [.file "photo.jpg" 10 1 2 true none,
                     .file "book.epub" 20 1 2 true none,
                     .file "notes.txt" 5 1 2 true none,
                     .file "video.mp4" 100 1 2 true none]]

/-- Fixture: a plain unbounded scan configuration. -/
def tinyCfg : ScanCfg :=
  { include_hash := false, max_depth := none, file_type_filter := none,
    excludePaths := [] }

/-- C3: the stats invariant — `total_files` equals the sum of the six
per-category counters and `total_size` equals the sum of all cataloged
record sizes — holds of the initial state, is preserved by the
processing of every single yielded entry (so it holds at every point
during a scan), and therefore holds after scanning any sequence of
roots from any state satisfying it. -/
theorem C3_stats_invariant :
    statsInvariant initScanState ∧
    (∀ cfg st pe, statsInvariant st →
      statsInvariant (processScanEntry cfg st pe)) ∧
    (∀ fsTree cfg volumes st, statsInvariant st →
      statsInvariant (scan_multiple_volumes fsTree cfg volumes st)) :=
  ⟨⟨rfl, rfl⟩,
   fun cfg st pe h => processScanEntry_inv cfg st pe h,
   fun fsTree cfg volumes st h =>
     foldl_preserve statsInvariant _
       (fun s v hs => scan_directory_inv fsTree cfg v s hs) volumes st h⟩

/-- Closed instance of `C3_stats_invariant`: after scanning the fixture
volume the invariant holds. -/
theorem C3_stats_invariant_witness :
    statsInvariant (scan_multiple_volumes tinyFs tinyCfg [["v"]]
      initScanState) :=
  C3_stats_invariant.2.2 tinyFs tinyCfg [["v"]] initScanState ⟨rfl, rfl⟩

/-! ### C2 and C10 -/

theorem processRecord_dry_fs (copyFiles : Bool) (categoryDir : List String)
    (st : OrgState) (info : FileRecord) :
    (processRecord copyFiles true categoryDir st info).fs = st.fs := by
  unfold processRecord
  dsimp only
  split_ifs <;> simp_all

theorem foldRecords_dry_fs (copyFiles : Bool) (categoryDir : List String)
    (files : List FileRecord) (st : OrgState) :
    (files.foldl (processRecord copyFiles true categoryDir) st).fs = st.fs :=
  foldl_preserve (fun s => s.fs = st.fs) _
    (fun s a hs => (processRecord_dry_fs copyFiles categoryDir s a).trans hs)
    files st rfl

theorem processCategory_dry_fs (copyFiles : Bool) (basePath : List String)
    (flatten : Bool) (st : OrgState) (cf : String × List FileRecord) :
    (processCategory copyFiles true basePath flatten st cf).fs = st.fs := by
  unfold processCategory
  dsimp only
  split_ifs <;> simp_all [foldRecords_dry_fs]

theorem foldCategories_dry_fs (copyFiles : Bool) (basePath : List String)
    (flatten : Bool) (cs : List (String × List FileRecord)) (st : OrgState) :
    (cs.foldl (processCategory copyFiles true basePath flatten) st).fs
      = st.fs :=
  foldl_preserve (fun s => s.fs = st.fs) _
    (fun s a hs => (processCategory_dry_fs copyFiles basePath flatten s a).trans hs)
    cs st rfl

/-- C2: with `dry_run = true`, `organize_files` performs no file-system
mutation at all — the resulting file-system state (existing files and
directories, together with the modelled failure behaviour) is exactly
the input state, for every catalog, destination, copy mode, type filter
and flatten destination. -/
theorem C2_dry_run_no_mutation (catalog : List (String × List FileRecord))
    (baseOutputDir : List String) (copyFiles : Bool)
    (fileTypeFilter : Option String) (moveToDir : Option (List String))
    (fs0 : OrgFS) (errors0 : List String) :
    (organize_files catalog baseOutputDir copyFiles true fileTypeFilter
      moveToDir fs0 errors0).fs = fs0 := by
  unfold organize_files
  dsimp only
  split <;> try split
  all_goals first | rfl | exact foldCategories_dry_fs _ _ _ _ _

theorem processRecord_skipped (copyFiles dryRun : Bool)
    (categoryDir : List String) (st : OrgState) (info : FileRecord) :
    (processRecord copyFiles dryRun categoryDir st
      info).stats.skipped_operations = st.stats.skipped_operations := by
  unfold processRecord
  dsimp only
  split_ifs <;> simp_all

theorem foldRecords_skipped (copyFiles dryRun : Bool)
    (categoryDir : List String) (files : List FileRecord) (st : OrgState) :
    (files.foldl (processRecord copyFiles dryRun
      categoryDir) st).stats.skipped_operations
      = st.stats.skipped_operations :=
  foldl_preserve
    (fun s => s.stats.skipped_operations = st.stats.skipped_operations) _
    (fun s a hs => (processRecord_skipped copyFiles dryRun categoryDir s a).trans hs)
    files st rfl

theorem processCategory_skipped (copyFiles dryRun : Bool)
    (basePath : List String) (flatten : Bool) (st : OrgState)
    (cf : String × List FileRecord) :
    (processCategory copyFiles dryRun basePath flatten st
      cf).stats.skipped_operations = st.stats.skipped_operations := by
  unfold processCategory
  dsimp only
  split_ifs <;> simp_all [foldRecords_skipped]

theorem foldCategories_skipped (copyFiles dryRun : Bool)
    (basePath : List String) (flatten : Bool)
    (cs : List (String × List FileRecord)) (st : OrgState) :
    (cs.foldl (processCategory copyFiles dryRun basePath
      flatten) st).stats.skipped_operations = st.stats.skipped_operations :=
  foldl_preserve
    (fun s => s.stats.skipped_operations = st.stats.skipped_operations) _
    (fun s a hs =>
      (processCategory_skipped copyFiles dryRun basePath flatten s a).trans hs)
    cs st rfl

/-- C10: the `skipped_operations` counter is reset to zero at the start
of `organize_files` and no code path ever increments it, so after every
organize call — dry-run or real, filtered or not, flattened or not, for
every catalog and file-system state — it is still zero, and the final
summary always reports zero skipped operations. -/
theorem C10_skipped_always_zero (catalog : List (String × List FileRecord))
    (baseOutputDir : List String) (copyFiles dryRun : Bool)
    (fileTypeFilter : Option String) (moveToDir : Option (List String))
    (fs0 : OrgFS) (errors0 : List String) :
    (organize_files catalog baseOutputDir copyFiles dryRun fileTypeFilter
      moveToDir fs0 errors0).stats.skipped_operations = 0 := by
  unfold organize_files
  dsimp only
  split <;> try split
  all_goals first | rfl | exact foldCategories_skipped _ _ _ _ _ _

/-! ### C5 -/

theorem resolveDupLoop_first_free (occupied : List String → Bool)
    (categoryDir : List String) (stem suffix : String) :
    ∀ (d counter fuel : Nat) (dst : List String),
      occupied dst = true →
      (∀ j, counter ≤ j → j < counter + d →
        occupied (categoryDir ++ [dupName stem j suffix]) = true) →
      occupied (categoryDir ++ [dupName stem (counter + d) suffix]) = false →
      d + 2 ≤ fuel →
      resolveDupLoop occupied categoryDir stem suffix fuel counter dst
        = categoryDir ++ [dupName stem (counter + d) suffix] := by
  intro d
  induction d with
  | zero =>
    intro counter fuel dst hdst _hall hfree hfuel
    obtain ⟨f1, rfl⟩ : ∃ f1, fuel = f1 + 1 :=
      ⟨fuel - 1, by omega⟩
    obtain ⟨f2, rfl⟩ : ∃ f2, f1 = f2 + 1 := ⟨f1 - 1, by omega⟩
    simp only [resolveDupLoop, hdst, if_pos]
    simp only [Nat.add_zero] at hfree
    simp [resolveDupLoop, hfree]
  | succ d ih =>
    intro counter fuel dst hdst hall hfree hfuel
    obtain ⟨f1, rfl⟩ : ∃ f1, fuel = f1 + 1 := ⟨fuel - 1, by omega⟩
    simp only [resolveDupLoop, hdst, if_pos]
    have : counter + (d + 1) = (counter + 1) + d := by omega
    rw [this] at hfree ⊢
    exact ih (counter + 1) f1 _
      (hall counter (Nat.le_refl _) (by omega))
      (fun j h1 h2 => hall j (by omega) (by omega))
      hfree (by omega)

/-- Fixture: a record for a source file `/src/a.txt` (as cataloged under
`documents`). -/
def rec1 : FileRecord :=
  { path := ["src", "a.txt"], name := "a.txt", size := 1, modified := 1,
    created := 1, extension := ".txt", parent_dir := ["src"], hash := none,
    category := "documents" }

/-- Fixture: a second, distinct source also named `a.txt`
(`/src2/a.txt`). -/
def rec2 : FileRecord :=
  { path := ["src2", "a.txt"], name := "a.txt", size := 2, modified := 1,
    created := 1, extension := ".txt", parent_dir := ["src2"], hash := none,
    category := "documents" }

/-- Fixture: a catalog holding the two `a.txt` records under
`documents`. -/
def cat2 : List (String × List FileRecord) := [("documents", [rec1, rec2])]

/-- Fixture: the file system before organizing `cat2` into `/dest`:
both sources exist, the destination root exists, `mkdir` succeeds, all
involved directories are writable, and no copy raises. -/
def fsA : OrgFS :=
  { files := [["src", "a.txt"], ["src2", "a.txt"]]
    dirs := [["src"], ["src2"], ["dest"]]
    writableDirs := [["src"], ["src2"], ["dest", "documents"]]
    mkdirFail := []
    opFail := [] }

/-- C5: the duplicate-name loop of `organize_files` (real mode) returns
the original destination when it is free, and otherwise the first
`stem_k.suffix` candidate (`k = 1, 2, …`) that does not exist; as a
consequence, organizing two distinct source files both named `a.txt`
into `/dest` in real copy mode produces `/dest/documents/a.txt` and
`/dest/documents/a_1.txt`, with both sources still present and neither
destination overwriting the other. -/
theorem C5_duplicate_names :
    (∀ (occupied : List String → Bool) (categoryDir : List String)
       (stem suffix : String) (dst : List String) (fuel : Nat),
       occupied dst = false → 1 ≤ fuel →
       resolveDupLoop occupied categoryDir stem suffix fuel 1 dst = dst) ∧
    (∀ (occupied : List String → Bool) (categoryDir : List String)
       (stem suffix : String) (dst : List String) (k fuel : Nat),
       occupied dst = true → 1 ≤ k →
       (∀ j, 1 ≤ j → j < k →
         occupied (categoryDir ++ [dupName stem j suffix]) = true) →
       occupied (categoryDir ++ [dupName stem k suffix]) = false →
       k + 1 ≤ fuel →
       resolveDupLoop occupied categoryDir stem suffix fuel 1 dst
         = categoryDir ++ [dupName stem k suffix]) ∧
    (organize_files cat2 ["dest"] true false none none fsA []).fs.files
      = [["src", "a.txt"], ["src2", "a.txt"],
         ["dest", "documents", "a.txt"], ["dest", "documents", "a_1.txt"]] ∧
    (organize_files cat2 ["dest"] true false none none
      fsA []).stats.successful_operations = 2 := by
  refine ⟨?_, ?_, by decide, by decide⟩
  · intro occupied categoryDir stem suffix dst fuel hfree hfuel
    obtain ⟨f1, rfl⟩ : ∃ f1, fuel = f1 + 1 := ⟨fuel - 1, by omega⟩
    simp [resolveDupLoop, hfree]
  · intro occupied categoryDir stem suffix dst k fuel hdst hk hall hfree hfuel
    have hk' : 1 + (k - 1) = k := by omega
    have := resolveDupLoop_first_free occupied categoryDir stem suffix
      (k - 1) 1 fuel dst hdst
      (fun j h1 h2 => hall j h1 (by omega))
      (by rw [hk']; exact hfree) (by omega)
    rw [hk'] at this
    exact this

/-- Closed instance of `C5_duplicate_names`: with `/d/a.txt` the only
occupied path, the loop resolves the clash to `/d/a_1.txt`. -/
theorem C5_duplicate_names_witness :
    resolveDupLoop (fun p => p == ["d", "a.txt"]) ["d"] "a" ".txt" 2 1
      ["d", "a.txt"] = ["d"] ++ [dupName "a" 1 ".txt"] :=
  C5_duplicate_names.2.1 (fun p => p == ["d", "a.txt"]) ["d"] "a" ".txt"
    ["d", "a.txt"] 1 2 (by decide) (by decide)
    (fun j h1 h2 => absurd (h1.trans_lt h2) (lt_irrefl 1))
    (by decide) (by decide)

/-! ### C6 -/

/-- Fixture: one source file, and a destination whose category directory
`/dest/documents` cannot be created (`mkdir` raises). -/
def fsB : OrgFS :=
  { files := [["src", "a.txt"]]
    dirs := [["src"], ["dest"]]
    writableDirs := [["src"]]
    mkdirFail := [["dest", "documents"]]
    opFail := [] }

/-- Refutation of C6 as stated: organizing one `documents` file in real
mode while the category directory's creation fails records the error
and skips the category, but the category's file is counted neither as
failed nor as skipped — `OperationStats` stays all zero even though the
category holds one file, and no file operation touches the file
system. -/
theorem C6_counterexample :
    (catalogGet cat2 "documents").length = 2 ∧
    (organize_files cat2 ["dest"] true false none none fsB
      []).stats.failed_operations = 0 ∧
    (organize_files cat2 ["dest"] true false none none fsB
      []).stats.skipped_operations = 0 ∧
    (organize_files cat2 ["dest"] true false none none fsB
      []).stats.successful_operations = 0 ∧
    (organize_files cat2 ["dest"] true false none none fsB []).errors
      = ["Erro ao criar diretorio /dest/documents"] ∧
    (organize_files cat2 ["dest"] true false none none fsB []).fs = fsB := by
  refine ⟨by decide, by decide, by decide, by decide, by decide, by decide⟩

/-- C6 (amended): in real mode, when creating a non-empty category's
destination directory fails, exactly one error is recorded, the whole
category is skipped with no file operation attempted (the file system
and `OperationStats` are unchanged — the category's files are counted
neither as failed nor as skipped). -/
theorem C6_mkdir_failure_skips_category (copyFiles : Bool)
    (basePath : List String) (flatten : Bool) (st : OrgState) (c : String)
    (files : List FileRecord) (hne : files ≠ [])
    (hfail : st.fs.mkdirFail.contains
      (if flatten then basePath else basePath ++ [c]) = true) :
    processCategory copyFiles false basePath flatten st (c, files)
      = { st with errors := st.errors ++
          ["Erro ao criar diretorio "
            ++ pathStr (if flatten then basePath else basePath ++ [c])] } := by
  unfold processCategory
  dsimp only
  rw [if_neg (by simpa using hne)]
  rw [if_pos (by simpa using hfail)]

/-- Closed instance of `C6_mkdir_failure_skips_category` at the `fsB`
fixture. -/
theorem C6_mkdir_failure_skips_category_witness :
    processCategory true false ["dest"] false ⟨fsB, ⟨0, 0, 0⟩, []⟩
      ("documents", [rec1])
      = { fs := fsB, stats := ⟨0, 0, 0⟩,
          errors := ["Erro ao criar diretorio "
            ++ pathStr (["dest"] ++ ["documents"])] } :=
  C6_mkdir_failure_skips_category true ["dest"] false ⟨fsB, ⟨0, 0, 0⟩, []⟩
    "documents" [rec1] (by decide) (by decide)

/-! ### C7 -/

/-- Refutation of C7 as stated: scanning a non-existent root leaves the
whole scanner state — in particular the OperationLog `errors` — exactly
unchanged (the message is only printed, never recorded), while the scan
continues and the next root is still fully cataloged. -/
theorem C7_counterexample :
    findEntry ["missing"] tinyFs = none ∧
    (scan_directory tinyFs tinyCfg ["missing"] initScanState).errors = [] ∧
    scan_directory tinyFs tinyCfg ["missing"] initScanState = initScanState ∧
    counterGet (scan_multiple_volumes tinyFs tinyCfg [["missing"], ["v"]]
      initScanState).stats "total_files" = 4 := by
  refine ⟨rfl, by decide, by decide, by decide⟩

/-- C7 (amended): if a root path does not exist, `scan_directory`
returns its state completely unchanged — so the root contributes no
Catalog entries and, contrary to the claim, nothing is appended to the
OperationLog either — and `scan_multiple_volumes` continues with the
remaining roots exactly as if the missing root had not been listed. -/
theorem C7_missing_root (fsTree : Entry) (cfg : ScanCfg)
    (root : List String) (rest : List (List String)) (st : ScanState)
    (h : findEntry root fsTree = none) :
    scan_directory fsTree cfg root st = st ∧
    scan_multiple_volumes fsTree cfg (root :: rest) st
      = scan_multiple_volumes fsTree cfg rest st := by
  have h1 : scan_directory fsTree cfg root st = st := by
    unfold scan_directory
    rw [h]
  exact ⟨h1, by simp only [scan_multiple_volumes, List.foldl_cons, h1]⟩

/-- Closed instance of `C7_missing_root` at the `tinyFs` fixture. -/
theorem C7_missing_root_witness :
    scan_directory tinyFs tinyCfg ["missing"] initScanState = initScanState ∧
    scan_multiple_volumes tinyFs tinyCfg [["missing"], ["v"]] initScanState
      = scan_multiple_volumes tinyFs tinyCfg [["v"]] initScanState :=
  C7_missing_root tinyFs tinyCfg ["missing"] [["v"]] initScanState rfl

/-! ### Catalog-membership characterization (shared by C1 and C8) -/

instance : Nonempty Entry := ⟨Entry.dir "" []⟩

theorem processScanEntry_catalog_mem (cfg : ScanCfg) (st : ScanState)
    (pe : List String × Entry) (r : FileRecord) :
    r ∈ catalogRecords (processScanEntry cfg st pe).catalog ↔
      r ∈ catalogRecords st.catalog ∨ acceptedRecord cfg pe = some r := by
  obtain ⟨p, e⟩ := pe
  cases e with
  | dir n cs => simp [processScanEntry, acceptedRecord]
  | file name size mtime ctime statOk hashVal =>
    simp only [processScanEntry, acceptedRecord]
    split_ifs <;>
      simp [mem_catalogRecords_append, eq_comm]

theorem foldScan_catalog_mem (cfg : ScanCfg)
    (entries : List (List String × Entry)) (st : ScanState) (r : FileRecord) :
    r ∈ catalogRecords ((entries.foldl (processScanEntry cfg) st).catalog) ↔
      r ∈ catalogRecords st.catalog ∨
      ∃ pe ∈ entries, acceptedRecord cfg pe = some r := by
  induction entries generalizing st with
  | nil => simp
  | cons pe entries ih =>
    simp only [List.foldl_cons, ih, processScanEntry_catalog_mem,
      List.mem_cons]
    constructor
    · rintro ((h | h) | ⟨q, hq, h⟩)
      · exact Or.inl h
      · exact Or.inr ⟨pe, Or.inl rfl, h⟩
      · exact Or.inr ⟨q, Or.inr hq, h⟩
    · rintro (h | ⟨q, (rfl | hq), h⟩)
      · exact Or.inl (Or.inl h)
      · exact Or.inl (Or.inr h)
      · exact Or.inr ⟨q, hq, h⟩

theorem scan_directory_catalog_mem (fsTree : Entry) (cfg : ScanCfg)
    (root : List String) (st : ScanState) (r : FileRecord) :
    r ∈ catalogRecords ((scan_directory fsTree cfg root st).catalog) ↔
      r ∈ catalogRecords st.catalog ∨
      ∃ pe ∈ scanEntries cfg fsTree root, acceptedRecord cfg pe = some r := by
  unfold scan_directory scanEntries
  cases findEntry root fsTree with
  | none => simp
  | some e => exact foldScan_catalog_mem cfg _ st r

theorem acceptedRecord_not_excluded (cfg : ScanCfg)
    (pe : List String × Entry) (r : FileRecord)
    (h : acceptedRecord cfg pe = some r) :
    r.path = pe.1 ∧ isPathExcluded cfg.excludePaths pe.1 = false := by
  obtain ⟨p, e⟩ := pe
  cases e with
  | dir n cs => simp [acceptedRecord] at h
  | file name size mtime ctime statOk hashVal =>
    simp only [acceptedRecord] at h
    split_ifs at h with h1 h2 h3
    any_goals cases h
    exact ⟨rfl, by simpa using h1⟩

/-! ### C1 -/

theorem isPrefixOf_self (D : List String) : D.isPrefixOf D = true :=
  List.isPrefixOf_iff_prefix.mpr List.prefix_rfl

theorem isPathExcluded_of_isPrefixOf {excl : List (List String)}
    {D p : List String} (hD : D ∈ excl) (h : D.isPrefixOf p = true) :
    isPathExcluded excl p = true :=
  List.any_eq_true.mpr ⟨D, hD, h⟩

theorem isPrefixOf_of_append_singleton {D p : List String} {s : String}
    (h : D.isPrefixOf (p ++ [s]) = true) (hne : D ≠ p ++ [s]) :
    D.isPrefixOf p = true := by
  rw [List.isPrefixOf_iff_prefix] at h ⊢
  have hlen : D.length ≤ p.length := by
    have h1 := h.length_le
    simp only [List.length_append, List.length_singleton] at h1
    rcases Nat.lt_or_ge D.length (p.length + 1) with h2 | h2
    · omega
    · exact absurd (h.eq_of_length (by simp; omega)) hne
  exact List.prefix_of_prefix_length_le h (List.prefix_append p [s]) hlen

theorem mem_walkVisitedList (excl : List (List String)) (rootStr : String)
    (maxDepth : Nat) (cs : List Entry) (p q : List String) :
    q ∈ walkVisitedList excl rootStr maxDepth p cs ↔
      ∃ c ∈ cs, q ∈ walkVisited excl rootStr maxDepth (p ++ [c.name]) c := by
  induction cs with
  | nil => simp [walkVisitedList]
  | cons c cs ih => simp [walkVisitedList, ih]

theorem walkVisited_no_descend (excl : List (List String)) (rootStr : String)
    (maxDepth : Nat) (D : List String) (hD : D ∈ excl) :
    ∀ (n : Nat) (e : Entry), sizeOf e ≤ n → ∀ (p q : List String),
      q ∈ walkVisited excl rootStr maxDepth p e →
      D.isPrefixOf q = true → D ≠ q →
      D.isPrefixOf p = true ∧ D ≠ p := by
  intro n
  induction n with
  | zero =>
    intro e he
    cases e <;> simp [Entry.file.sizeOf_spec, Entry.dir.sizeOf_spec] at he
  | succ n ih =>
    intro e he p q hq hpre hne
    cases e with
    | file nm sz mt ct ok hv => simp [walkVisited] at hq
    | dir nm cs =>
      simp only [walkVisited] at hq
      rcases List.mem_cons.mp hq with rfl | hq'
      · exact ⟨hpre, hne⟩
      by_cases hex : isPathExcluded excl p = true
      · simp [hex] at hq'
      by_cases hlvl : sepCount (pyRemove (pathStr p) rootStr) ≥ maxDepth
      · simp [hex, hlvl] at hq'
      simp only [hex, hlvl, if_false, if_neg, Bool.false_eq_true,
        not_false_iff] at hq'
      rw [mem_walkVisitedList] at hq'
      obtain ⟨c, hc, hqc⟩ := hq'
      have hsz : sizeOf c ≤ n := by
        have h1 := List.sizeOf_lt_of_mem hc
        have h2 : sizeOf (Entry.dir nm cs) = 1 + sizeOf nm + sizeOf cs := by
          simp [Entry.dir.sizeOf_spec]
        omega
      have hrec := ih c hsz (p ++ [c.name]) q hqc hpre hne
      have hp : D.isPrefixOf p = true :=
        isPrefixOf_of_append_singleton hrec.1 hrec.2
      refine ⟨hp, ?_⟩
      rintro rfl
      exact hex (isPathExcluded_of_isPrefixOf hD (isPrefixOf_self D))

/-- Fixture: a root `/r` containing a file `y.txt` and a subtree
`/r/d/s/x.txt` under the excluded directory `/r/d`. -/
def exclFs : Entry :=
  .dir "" [.dir "r" [.dir "d" [.dir "s" [.file "x.txt" 1 1 1 true none]],
                     .file "y.txt" 2 1 1 true none]]

/-- Fixture: scan with `/r/d` excluded and no depth limit (the `rglob`
branch). -/
def exclCfgNone : ScanCfg :=
  { include_hash := false, max_depth := none, file_type_filter := none,
    excludePaths := [["r", "d"]] }

/-- Fixture: scan with `/r/d` excluded and a depth limit (the `os.walk`
branch). -/
def exclCfgDepth : ScanCfg :=
  { include_hash := false, max_depth := some 5, file_type_filter := none,
    excludePaths := [["r", "d"]] }

/-- Fixture: scan whose root `/r/d` lies inside the excluded path `/r`,
depth-limited. -/
def exclCfgInside : ScanCfg :=
  { include_hash := false, max_depth := some 3, file_type_filter := none,
    excludePaths := [["r"]] }

/-- Refutation of C1 as stated: with no depth limit the traversal is
`rglob`, which does descend below the excluded directory `/r/d` — the
directory `/r/d/s`, strictly below the exclusion, is visited even
though the scan root `/r` is outside the excluded subtree.  (The
catalog itself still contains nothing below `/r/d`; only the
no-descent half of the claim fails.) -/
theorem C1_counterexample :
    ["r", "d"] ∈ exclCfgNone.excludePaths ∧
    (["r", "d"] : List String).isPrefixOf ["r", "d", "s"] = true ∧
    (["r", "d"] : List String) ≠ ["r", "d", "s"] ∧
    ["r", "d", "s"] ∈ scanVisitedDirs exclCfgNone exclFs ["r"] ∧
    (["r", "d"] : List String).isPrefixOf ["r"] = false :=
  ⟨by decide, by decide, by decide, by decide, by decide⟩

/-- C1 (amended): for every configuration the Catalog acquires no record
whose path equals an excluded path or lies below one; and whenever
`max_depth` is set (the `os.walk` branch) the traversal never visits a
directory strictly below an excluded path unless the scan root itself
lies strictly below it.  (With `max_depth` unset the `rglob` branch
enumerates excluded subtrees and only skips their files one by one —
see `C1_counterexample`.) -/
theorem C1_exclusion_amended :
    (∀ fsTree cfg volumes st D,
       D ∈ cfg.excludePaths →
       (∀ r ∈ catalogRecords st.catalog, D.isPrefixOf r.path = false) →
       ∀ r ∈ catalogRecords
         ((scan_multiple_volumes fsTree cfg volumes st).catalog),
         D.isPrefixOf r.path = false) ∧
    (∀ fsTree cfg root d D q,
       cfg.max_depth = some d → D ∈ cfg.excludePaths →
       q ∈ scanVisitedDirs cfg fsTree root →
       D.isPrefixOf q = true → D ≠ q →
       D.isPrefixOf root = true ∧ D ≠ root) := by
  constructor
  · intro fsTree cfg volumes st D hD hst
    refine foldl_preserve
      (fun s : ScanState =>
        ∀ r ∈ catalogRecords s.catalog, D.isPrefixOf r.path = false)
      _ ?_ volumes st hst
    intro s v hs r hr
    rcases (scan_directory_catalog_mem fsTree cfg v s r).mp hr with
      h | ⟨pe, _hpe, hacc⟩
    · exact hs r h
    · obtain ⟨hpath, hexcl⟩ := acceptedRecord_not_excluded cfg pe r hacc
      cases hval : D.isPrefixOf r.path with
      | false => rfl
      | true =>
        rw [hpath] at hval
        have := isPathExcluded_of_isPrefixOf hD hval
        rw [this] at hexcl
        cases hexcl
  · intro fsTree cfg root d D q hmd hD hq hpre hne
    unfold scanVisitedDirs at hq
    cases hfe : findEntry root fsTree with
    | none => rw [hfe] at hq; simp at hq
    | some e =>
      rw [hfe, hmd] at hq
      exact walkVisited_no_descend cfg.excludePaths (pathStr root) d D hD
        (sizeOf e) e (Nat.le_refl _) root q hq hpre hne

/-- Closed instance of `C1_exclusion_amended`: a depth-limited scan of
`/r` with `/r/d` excluded catalogs nothing under `/r/d`; and scanning
the root `/r/d` with `/r` excluded visits only that root, which indeed
lies strictly below the exclusion. -/
theorem C1_exclusion_amended_witness :
    (∀ r ∈ catalogRecords
       ((scan_multiple_volumes exclFs exclCfgDepth [["r"]]
         initScanState).catalog),
       (["r", "d"] : List String).isPrefixOf r.path = false) ∧
    ((["r"] : List String).isPrefixOf ["r", "d"] = true ∧
      (["r"] : List String) ≠ ["r", "d"]) :=
  ⟨C1_exclusion_amended.1 exclFs exclCfgDepth [["r"]] initScanState
     ["r", "d"] (by decide) (by decide),
   C1_exclusion_amended.2 exclFs exclCfgInside ["r", "d"] 3 ["r"]
     ["r", "d"] rfl (by decide) (by decide) (by decide) (by decide)⟩

/-! ### C8 -/

theorem targetExtensions_recognized {f : String} {exts : List String}
    (hne : f ≠ "") (hf : categoryExts (strLower f) = some exts) :
    targetExtensions (some f) = some exts := by
  have hempty : f.isEmpty = false := by
    rw [Bool.eq_false_iff]
    intro hh
    exact hne ((String.isEmpty_iff f).mp hh)
  simp [targetExtensions, hempty, hf]

/-- Fixture: scan of the four-file volume filtered by `"outros"`. -/
def outrosCfg : ScanCfg :=
  { include_hash := false, max_depth := none,
    file_type_filter := some "outros", excludePaths := [] }

/-- Fixture: scan of the four-file volume filtered by `"fotos"`. -/
def fotosCfg : ScanCfg :=
  { include_hash := false, max_depth := none,
    file_type_filter := some "fotos", excludePaths := [] }

/-- Refutation of C8 as stated: `"outros"` is a recognized category
whose configured extension set is empty, so by the claim a scan
filtered by it should catalog no file at all; but an empty target set
is falsy in Python, the filter is silently disabled, and all four
fixture files are cataloged (the `.jpg` one under `fotos`). -/
theorem C8_counterexample :
    categoryExts (strLower "outros") = some [] ∧
    counterGet (scan_directory tinyFs outrosCfg ["v"] initScanState).stats
      "total_files" = 4 ∧
    (scan_directory tinyFs outrosCfg ["v"] initScanState).catalog.map
      Prod.fst = ["fotos", "ebooks", "documents", "filmes"] :=
  ⟨by decide, by decide, by decide⟩

/-- C8 (amended): for a truthy type filter naming a recognized category
with a non-empty extension set, the catalog grows by exactly the
records of those traversed files that pass the exclusion filter, have
readable metadata, and whose lowercased extension lies in that
category's set; every accepted record's extension is in the set while
its category field still comes from normal classification (for the
fallback category `"outros"`, whose set is empty, the filter is
disabled instead — see `C8_counterexample`). -/
theorem C8_type_filter_amended (fsTree : Entry) (root : List String)
    (st : ScanState) (cfg : ScanCfg) (f : String) (exts : List String)
    (hfilter : cfg.file_type_filter = some f) (hne : f ≠ "")
    (hrec : categoryExts (strLower f) = some exts) (hnonempty : exts ≠ []) :
    (∀ r, r ∈ catalogRecords ((scan_directory fsTree cfg root st).catalog) ↔
       r ∈ catalogRecords st.catalog ∨
       ∃ pe ∈ scanEntries cfg fsTree root, acceptedRecord cfg pe = some r) ∧
    (∀ pe r, acceptedRecord cfg pe = some r →
       r.extension ∈ exts ∧
       r.category = categorize_file (nameSuffix pe.2.name) ∧
       r.path = pe.1) ∧
    (∀ (p : List String) (name : String) (size mtime ctime : Nat)
       (hashVal : Option String),
       isPathExcluded cfg.excludePaths p = false →
       strLower (nameSuffix name) ∈ exts →
       acceptedRecord cfg (p, .file name size mtime ctime true hashVal)
         = some (mkScanRecord cfg p name size mtime ctime hashVal)) := by
  have htgt : targetExtensions cfg.file_type_filter = some exts := by
    rw [hfilter]; exact targetExtensions_recognized hne hrec
  have hempty : exts.isEmpty = false := by
    cases exts with
    | nil => exact absurd rfl hnonempty
    | cons a l => rfl
  refine ⟨fun r => scan_directory_catalog_mem fsTree cfg root st r, ?_, ?_⟩
  · intro pe r h
    obtain ⟨p, e⟩ := pe
    cases e with
    | dir n cs => simp [acceptedRecord] at h
    | file name size mtime ctime statOk hashVal =>
      simp only [acceptedRecord] at h
      split_ifs at h with h1 h2 h3
      any_goals cases h
      have hmem : strLower (nameSuffix name) ∈ exts := by
        rw [htgt] at h2
        simp only [skipByFilter, hempty, Bool.not_false, Bool.true_and,
          Bool.not_eq_true, Bool.not_eq_false] at h2
        simpa [List.contains] using h2
      exact ⟨hmem, rfl, rfl⟩
  · intro p name size mtime ctime hashVal hexcl hmem
    simp [acceptedRecord, hexcl, htgt, skipByFilter, hempty, hmem,
      List.contains]

/-- Closed instance of `C8_type_filter_amended`: under the `fotos`
filter, the fixture's `photo.jpg` (not excluded, readable, `.jpg` in
the `fotos` set) is accepted, and its record is classified `fotos` by
the normal classifier. -/
theorem C8_type_filter_amended_witness :
    acceptedRecord fotosCfg (["v", "photo.jpg"],
        Entry.file "photo.jpg" 10 1 2 true none)
      = some (mkScanRecord fotosCfg ["v", "photo.jpg"] "photo.jpg"
          10 1 2 none) ∧
    (mkScanRecord fotosCfg ["v", "photo.jpg"] "photo.jpg"
      10 1 2 none).category = "fotos" :=
  ⟨(C8_type_filter_amended tinyFs ["v"] initScanState fotosCfg "fotos"
      fotosExts rfl (by decide) (by decide) (by decide)).2.2
      ["v", "photo.jpg"] "photo.jpg" 10 1 2 none (by decide) (by decide),
   by decide⟩

/-! ### C9 -/

/-- Fixture: a root `/a` whose path string reappears below it — the
file sits at `/a/b/a/c/f.txt`, in a directory at depth 3 relative to
the root. -/
def bugFs : Entry :=
  .dir "" [.dir "a" [.dir "b" [.dir "a" [.dir "c"
    [.file "f.txt" 1 1 1 true none]]]]]

/-- Fixture: depth-limited scan of `/a` with `max_depth = 2`. -/
def bugCfg : ScanCfg :=
  { include_hash := false, max_depth := some 2, file_type_filter := none,
    excludePaths := [] }

/-- C9's failing input, evaluated: `_get_files_with_depth` computes the
level of `/a/b/a` by deleting every occurrence of the root string `/a`
(`"/a/b/a".replace("/a", "") = "/b"`, one separator), so it undercounts
the true depth 2 as 1, descends into `/a/b/a/c` (depth 3 — past
`max_depth = 2`), and yields and catalogs `/a/b/a/c/f.txt`, whose
containing directory is at depth 3 relative to the root, violating the
claimed depth bound. -/
theorem C9_depth_bug :
    bugCfg.max_depth = some 2 ∧
    sepCount (pyRemove (pathStr ["a", "b", "a"]) (pathStr ["a"])) = 1 ∧
    (scanEntries bugCfg bugFs ["a"]).map Prod.fst
      = [["a", "b", "a", "c", "f.txt"]] ∧
    (["a", "b", "a", "c", "f.txt"] : List String).dropLast.length
        - (["a"] : List String).length = 3 ∧
    counterGet (scan_directory bugFs bugCfg ["a"] initScanState).stats
      "total_files" = 1 :=
  ⟨rfl, by decide, by decide, by decide, by decide⟩
